import Mathlib

/-!
Shallow embedding of the DfiLabs admin-panel signal-dashboard scripts:
`csv-monitor.js` (class CSVMonitor) and `portfolio-logger.js`
(class PortfolioLogger), together with theorems settling the frozen claims
about the Rebalance Ingestor and the Valuation Logger.

Modelling conventions:
* JavaScript numbers are modelled as rationals; a JS `NaN` is modelled as
  `none` in `Option ℚ` where the code can produce one (`parseFloat` of an
  unparsable string), with NaN-propagating arithmetic helpers.
* Asynchronous fetches are modelled as explicit inputs: the file listing is
  a `List CSVFile` argument, and loading a file's content is a function
  `String → Option String` (`none` covers both the monitoring-server path
  and the local-file fallback failing).
* DOM reads (`document.getElementById(..).textContent`) are `Option String`
  inputs (`none` = element absent).
* `Date` instants are natural numbers (epoch milliseconds); the ISO-8601
  rendering used for the `timestamp` field is injective and order-preserving
  in the instant, so the record's timestamp is modelled by the instant.
-/

/-! ### Character and string helpers (structural, kernel-evaluable) -/

/-- Whitespace characters stripped by `String.prototype.trim` (ASCII subset;
the Unicode extras are never produced by the repository's data). -/
def isWSChar (c : Char) : Bool :=
  c = ' ' ∨ c = '\t' ∨ c = '\n' ∨ c = '\r'

/-- Both-ends trim over a character list, as in `text.trim()`. -/
def trimChars (l : List Char) : List Char :=
  ((l.dropWhile isWSChar).reverse.dropWhile isWSChar).reverse

/-- `s.split(sep)` over character lists; like JS `String.prototype.split`
with a single-character separator it always returns at least one group. -/
def splitOnChar (sep : Char) : List Char → List (List Char)
  | [] => [[]]
  | c :: cs =>
    match splitOnChar sep cs with
    | [] => [[c]]
    | g :: gs => if c = sep then [] :: g :: gs else (c :: g) :: gs

/-- Drop an expected literal from the front: `some rest` iff the literal is
an initial run of the input. -/
def dropLit : List Char → List Char → Option (List Char)
  | [], s => some s
  | _ :: _, [] => none
  | p :: ps, c :: cs => if p = c then dropLit ps cs else none

/-- Drop exactly `n` decimal digits from the front. -/
def dropDigitCount : Nat → List Char → Option (List Char)
  | 0, s => some s
  | _ + 1, [] => none
  | n + 1, c :: cs => if c.isDigit then dropDigitCount n cs else none

/-- All suffixes of a character list, longest first (the start positions a
regex engine scans when the pattern is unanchored). -/
def allSuffixes : List Char → List (List Char)
  | [] => [[]]
  | c :: cs => (c :: cs) :: allSuffixes cs

/-! ### JS number semantics -/

/-- Read a maximal run of decimal digits, returning the accumulated value,
the number of digits consumed, and the rest. -/
def readDigits : List Char → ℕ → ℕ → ℕ × ℕ × List Char
  | [], acc, n => (acc, n, [])
  | c :: cs, acc, n =>
    if c.isDigit then readDigits cs (10 * acc + (c.toNat - 48)) (n + 1)
    else (acc, n, c :: cs)

/-- JS `parseFloat`: skip leading whitespace, optional sign, a maximal
decimal literal (integer part, optional fraction, optional exponent); the
result is `none` for `NaN` (no digits at all). The `Infinity` literal and
exotic Unicode whitespace are omitted: the repository's inputs never use
them. As in JS, trailing garbage after the longest valid literal is
ignored (`parseFloat("12abc") = 12`, `parseFloat("1e+") = 1`). -/
def jsParseFloat (s : String) : Option ℚ :=
  let l := s.toList.dropWhile isWSChar
  let signRest : ℚ × List Char :=
    match l with
    | '-' :: r => (-1, r)
    | '+' :: r => (1, r)
    | r => (1, r)
  let ipRest := readDigits signRest.2 0 0
  let frRest : ℕ × ℕ × List Char :=
    match ipRest.2.2 with
    | '.' :: r => readDigits r 0 0
    | r => (0, 0, r)
  if ipRest.2.1 = 0 ∧ frRest.2.1 = 0 then none
  else
    let mant : ℚ := (ipRest.1 : ℚ) + (frRest.1 : ℚ) / ((10 : ℚ) ^ frRest.2.1)
    let e : ℤ :=
      match frRest.2.2 with
      | c :: r =>
        if c = 'e' ∨ c = 'E' then
          let esRest : ℤ × List Char :=
            match r with
            | '-' :: r2 => (-1, r2)
            | '+' :: r2 => (1, r2)
            | r2 => (1, r2)
          let ev := readDigits esRest.2 0 0
          if ev.2.1 = 0 then 0 else esRest.1 * (ev.1 : ℤ)
        else 0
      | [] => 0
    some (signRest.1 * mant * (10 : ℚ) ^ e)

/-- Remove every occurrence of the given characters, as in
`text.replace(/[$,]/g, '')`. -/
def stripAll (bad : List Char) (s : String) : String :=
  String.mk (s.toList.filter (fun c => !(bad.contains c)))

/-- NaN-propagating addition on JS numbers (`none` = NaN). -/
def jsAdd : Option ℚ → Option ℚ → Option ℚ
  | some a, some b => some (a + b)
  | _, _ => none

/-- `Math.abs`, propagating NaN. -/
def jsAbs : Option ℚ → Option ℚ
  | some a => some |a|
  | none => none

/-- JS `>` on numbers: any comparison involving NaN is false. -/
def jsGtBool : Option ℚ → Option ℚ → Bool
  | some a, some b => decide (b < a)
  | _, _ => false

/-- JS `Number.prototype.toFixed(2)`: round to the integer numerator `n`
with `n / 100` as close to the value as possible, ties to the larger `n`,
then render with exactly two decimals. -/
def toFixed2 (q : ℚ) : String :=
  let n : ℤ := ⌊q * 100 + 1 / 2⌋
  let a := n.natAbs
  let fracPart := a % 100
  (if n < 0 then "-" else "") ++ toString (a / 100) ++ "." ++
    (if fracPart < 10 then "0" ++ toString fracPart else toString fracPart)

/-! ### CSVMonitor (apps/signal-dashboard/scripts/csv-monitor.js) -/

namespace CSVMonitor

/-- One entry of the monitoring server's file listing
(`{filename, modified, size}`; `size` is never consulted by the monitor). -/
structure CSVFile where
  filename : String
  modified : String
  deriving DecidableEq, Repr

/-- The literal head of the pattern
`/lpxd_external_advisors_DF_(\d{8}-\d{4})\.csv/`. -/
def patternLit : List Char := "lpxd_external_advisors_DF_".toList

/-- One attempted match of the pattern starting at the head of the input:
the literal, eight digits, a dash, four digits, then `.csv`. The pattern is
unanchored, so characters may remain after the `.csv`. -/
def matchAt (s : List Char) : Bool :=
  match dropLit patternLit s with
  | none => false
  | some s₁ =>
    match dropDigitCount 8 s₁ with
    | none => false
    | some s₂ =>
      match s₂ with
      | '-' :: s₃ =>
        match dropDigitCount 4 s₃ with
        | none => false
        | some s₄ => (dropLit ".csv".toList s₄).isSome
      | _ => false

/-- `pattern.test(filename)`: the unanchored regex matches somewhere in the
string, i.e. at some suffix's head. -/
def regexTest (s : String) : Bool :=
  (allSuffixes s.toList).any matchAt

/-- Modelled from the spec side of claim C7: the filename, as a whole, is of
the form `lpxd_external_advisors_DF_<8 digits>-<4 digits>.csv` (nothing
before the literal, nothing after `.csv`). This is the claim's reading of
"its name matches the daily naming convention", to be compared with the
source's unanchored `regexTest`. -/
def specNameForm (s : String) : Bool :=
  match dropLit patternLit s.toList with
  | none => false
  | some s₁ =>
    match dropDigitCount 8 s₁ with
    | none => false
    | some s₂ =>
      match s₂ with
      | '-' :: s₃ =>
        match dropDigitCount 4 s₃ with
        | none => false
        | some s₄ => dropLit ".csv".toList s₄ = some []
      | _ => false

/-- `filename.endsWith('2355.csv')`. -/
def ends2355 (s : String) : Bool :=
  (dropLit ("2355.csv".toList.reverse) s.toList.reverse).isSome

/-- Outcome of `findLatestCSV`: `nothingAtAll` models the `return null`
branch, `found` the returned file, `err` the thrown
`'2355.csv file is required but not found!'`. -/
inductive FindResult where
  | nothingAtAll : FindResult
  | found : CSVFile → FindResult
  | err : FindResult
  deriving DecidableEq, Repr

/-- `CSVMonitor.findLatestCSV`: filter the listing by the (unanchored)
pattern test; `null` when nothing passes; otherwise the first filtered file
ending in `2355.csv`, or a thrown error when none does. -/
def findLatestCSV (csvFiles : List CSVFile) : FindResult :=
  let validFiles := csvFiles.filter (fun file => regexTest file.filename)
  if validFiles.isEmpty then .nothingAtAll
  else
    match validFiles.find? (fun file => ends2355 file.filename) with
    | some preferredFile => .found preferredFile
    | none => .err

/-- The monitor's mutable tracking state (`this.currentCSV`,
`this.lastModified`; both `null` in the constructor). -/
structure MonitorState where
  currentCSV : Option String
  lastModified : Option String
  deriving DecidableEq, Repr

/-- The constructor's state: `currentCSV = null`, `lastModified = null`.
This is also the state after a restart of the monitor. -/
def initialState : MonitorState := ⟨none, none⟩

/-- `values[index] ? values[index].trim() : ''`: an out-of-range index
(JS `undefined`) and the empty string are both falsy and yield `''`. -/
def rowValue (values : List String) (i : ℕ) : String :=
  match values.get? i with
  | some v => if v = "" then "" else String.mk (trimChars v.toList)
  | none => ""

/-- `CSVMonitor.parseCSV`: trim the text, split into lines, take the first
line's comma-split fields as headers, and build one row per remaining line
as the (trimmed header, value) pairs in header order. (A JS object would
keep only the last entry for a duplicated header name; the claims never
involve duplicated headers, and the pair list retains strictly more
information.) No validation of any kind is performed. -/
def parseCSV (csvText : String) : List (List (String × String)) :=
  let lines := splitOnChar '\n' (trimChars csvText.toList)
  let headers := splitOnChar ',' (lines.headD [])
  (lines.drop 1).map (fun line =>
    let values := (splitOnChar ',' line).map String.mk
    headers.enum.map (fun p => (String.mk (trimChars p.2), rowValue values p.1)))

/-- `CSVMonitor.triggerRebalancing`: load the file's content (server first,
then local fallback — collapsed into the `load` input, `none` = both
failed/threw), parse it, and invoke the rebalance callback with the parsed
rows. Any throw is caught inside this method (an error notification is
shown); `none` means the callback was not invoked, `some rows` means it was
invoked with exactly these rows. -/
def triggerRebalancing (load : String → Option String) (csvFilename : String) :
    Option (List (List (String × String))) :=
  match load csvFilename with
  | none => none
  | some csvText => some (parseCSV csvText)

/-- Result of one `checkForNewCSV` cycle: the monitor state afterwards and
the position rows the rebalance callback was invoked with (if it was). -/
structure CheckResult where
  state : MonitorState
  rebalanced : Option (List (List (String × String)))
  deriving DecidableEq, Repr

/-- `CSVMonitor.checkForNewCSV`: empty listing → no-op; `findLatestCSV`
throwing or returning `null` → no-op (the outer `try/catch` swallows the
throw before any state mutation); otherwise, when the latest file's name or
modified time differs from the tracked state, the state is updated **first**
and only then is `triggerRebalancing` awaited (whose own failures are caught
internally and do not roll the state back). -/
def checkForNewCSV (st : MonitorState) (csvFiles : List CSVFile)
    (load : String → Option String) : CheckResult :=
  if csvFiles.isEmpty then ⟨st, none⟩
  else
    match findLatestCSV csvFiles with
    | .nothingAtAll => ⟨st, none⟩
    | .err => ⟨st, none⟩
    | .found latestCSV =>
      if st.currentCSV ≠ some latestCSV.filename ∨
          st.lastModified ≠ some latestCSV.modified then
        ⟨⟨some latestCSV.filename, some latestCSV.modified⟩,
          triggerRebalancing load latestCSV.filename⟩
      else ⟨st, none⟩

/-- `this.csvReleaseWindow.start`. -/
def csvReleaseWindowStart : ℚ := 0

/-- `this.csvReleaseWindow.end` (00:30 as a fraction of an hour). -/
def csvReleaseWindowEnd : ℚ := 0.5

/-- `CSVMonitor.updateCheckInterval`: `currentTime = hours + minutes/60`;
inside the release window the new interval is 10000 ms, otherwise 60000 ms;
the field is reassigned only when the value changed (the result is the
interval in force after the run either way). -/
def updateCheckInterval (currentHour currentMinute checkInterval : ℕ) : ℕ :=
  let currentTime : ℚ := (currentHour : ℚ) + (currentMinute : ℚ) / 60
  let newInterval : ℕ :=
    if csvReleaseWindowStart ≤ currentTime ∧ currentTime ≤ csvReleaseWindowEnd
    then 10000 else 60000
  if newInterval ≠ checkInterval then newInterval else checkInterval

end CSVMonitor

/-! ### PortfolioLogger
(apps/signal-dashboard/monorepo/apps/signal-dashboard/scripts/portfolio-logger.js) -/

namespace PortfolioLogger

/-- One row of the dashboard's `portfolioData` array (set by the rebalance
pipeline from a parsed CSV row); fields the logger reads. An absent field is
the empty string (falsy, like JS `undefined`, for the `||` chains and
unparsable for `parseFloat`). -/
structure Position where
  ticker : String
  ric : String
  internal_code : String
  target_contracts : String
  target_notional : String
  deriving DecidableEq, Repr

/-- The 26 column names of `this.logHeaders`, in order. -/
def logHeaders : List String :=
  ["timestamp", "date", "time_utc", "time_paris", "csv_filename", "action",
   "portfolio_value", "daily_pnl", "daily_pnl_percent", "cumulative_pnl",
   "total_positions", "long_positions", "short_positions",
   "long_notional", "short_notional", "total_notional_at_entry",
   "gross_exposure", "net_exposure",
   "top_long_symbol", "top_long_weight", "top_short_symbol", "top_short_weight",
   "hit_rate_estimate", "avg_win", "avg_loss", "reliability_ratio"]

/-- `PortfolioLogger.getPortfolioValue`: read `#portfolio-value`, strip `$`
and `,`, then `parseFloat(text) || 0` — an absent element or an unparsable
(or zero) text yields the number 0. -/
def getPortfolioValue (portfolioValueText : Option String) : ℚ :=
  match portfolioValueText with
  | some text => (jsParseFloat (stripAll ['$', ','] text)).getD 0
  | none => 0

/-- `PortfolioLogger.getDailyPnL`: same shape over `#daily-pnl`. -/
def getDailyPnL (dailyPnlText : Option String) : ℚ :=
  match dailyPnlText with
  | some text => (jsParseFloat (stripAll ['$', ','] text)).getD 0
  | none => 0

/-- `PortfolioLogger.getDailyPnLPercent`: `#pnl-percent` with `%` and `,`
stripped. -/
def getDailyPnLPercent (pnlPercentText : Option String) : ℚ :=
  match pnlPercentText with
  | some text => (jsParseFloat (stripAll ['%', ','] text)).getD 0
  | none => 0

/-- `PortfolioLogger.getCumulativePnL`: `window.cumulativePnL || 0`
(`none` = the global was never set). -/
def getCumulativePnL (cumulativePnL : Option ℚ) : ℚ :=
  match cumulativePnL with
  | some v => v
  | none => 0

/-- `PortfolioLogger.getTotalNotionalData`: each of the two notional status
elements read like `getPortfolioValue`, absent element → 0. -/
def getTotalNotionalData (totalLongText totalShortText : Option String) : ℚ × ℚ :=
  (getPortfolioValue totalLongText, getPortfolioValue totalShortText)

/-- Accumulator of the `getPositionCounts` loop. -/
structure PosAcc where
  long : ℕ
  short : ℕ
  longNotional : Option ℚ
  shortNotional : Option ℚ
  deriving DecidableEq, Repr

/-- One iteration of the `getPositionCounts` forEach:
`side = parseFloat(target_contracts) > 0 ? 'LONG' : 'SHORT'` (a JS `>`
against NaN is false, so an unparsable field is SHORT), long notionals
accumulated signed, short notionals in absolute value. -/
def posStep (acc : PosAcc) (position : Position) : PosAcc :=
  let notional := jsParseFloat position.target_notional
  if jsGtBool (jsParseFloat position.target_contracts) (some 0) then
    { acc with long := acc.long + 1,
               longNotional := jsAdd acc.longNotional notional }
  else
    { acc with short := acc.short + 1,
               shortNotional := jsAdd acc.shortNotional (jsAbs notional) }

/-- Return value of `getPositionCounts`. -/
structure PosCounts where
  total : ℕ
  long : ℕ
  short : ℕ
  longNotional : Option ℚ
  shortNotional : Option ℚ
  deriving DecidableEq, Repr

/-- `PortfolioLogger.getPositionCounts`: zeros for an empty (or absent)
`portfolioData`, otherwise one pass with `posStep`, returning the counts
with `total = longCount + shortCount`. -/
def getPositionCounts (portfolioData : List Position) : PosCounts :=
  if portfolioData.isEmpty then ⟨0, 0, 0, some 0, some 0⟩
  else
    let a := portfolioData.foldl posStep ⟨0, 0, some 0, some 0⟩
    ⟨a.long + a.short, a.long, a.short, a.longNotional, a.shortNotional⟩

/-- `PortfolioLogger.getExposureData`: gross += |notional|, net += notional
(NaN-propagating); zeros for empty data. -/
def getExposureData (portfolioData : List Position) : Option ℚ × Option ℚ :=
  if portfolioData.isEmpty then (some 0, some 0)
  else
    portfolioData.foldl
      (fun acc position =>
        let notional := jsParseFloat position.target_notional
        (jsAdd acc.1 (jsAbs notional), jsAdd acc.2 notional))
      (some 0, some 0)

/-- A running top position in `getTopPositions` (`{symbol: 'N/A', weight: 0}`
initially). -/
structure TopPos where
  symbol : String
  weight : Option ℚ
  deriving DecidableEq, Repr

/-- One iteration of `getTopPositions`: symbol by the falsy chain
`ticker || ric || internal_code`, `weight = (notional / 1000000) * 100`,
and the running maximum replaced when `Math.abs(weight)` strictly exceeds
the incumbent's (comparisons with NaN are false). -/
def topStep (acc : TopPos × TopPos) (position : Position) : TopPos × TopPos :=
  let symbol :=
    if position.ticker ≠ "" then position.ticker
    else if position.ric ≠ "" then position.ric
    else position.internal_code
  let notional := jsParseFloat position.target_notional
  let weight := notional.map (fun q => q / 1000000 * 100)
  let isLong := jsGtBool (jsParseFloat position.target_contracts) (some 0)
  if isLong ∧ jsGtBool (jsAbs weight) (jsAbs acc.1.weight) then
    (⟨symbol, weight⟩, acc.2)
  else if (¬ isLong) ∧ jsGtBool (jsAbs weight) (jsAbs acc.2.weight) then
    (acc.1, ⟨symbol, weight⟩)
  else acc

/-- `PortfolioLogger.getTopPositions` (long, short). -/
def getTopPositions (portfolioData : List Position) : TopPos × TopPos :=
  if portfolioData.isEmpty then (⟨"N/A", some 0⟩, ⟨"N/A", some 0⟩)
  else portfolioData.foldl topStep (⟨"N/A", some 0⟩, ⟨"N/A", some 0⟩)

/-- Return value of `getPerformanceMetrics` (the source `toFixed(2)`s each
number into a string). -/
structure PerfMetrics where
  hitRate : String
  avgWin : String
  avgLoss : String
  reliability : String
  deriving DecidableEq, Repr

/-- `PortfolioLogger.getPerformanceMetrics`: estimates derived from the
current daily P&L element only. -/
def getPerformanceMetrics (dailyPnlText : Option String) : PerfMetrics :=
  let dailyPnL := getDailyPnL dailyPnlText
  let hitRate : ℚ := if 0 < dailyPnL then 0.6 else 0.4
  let avgWin : ℚ := if 0 < dailyPnL then |dailyPnL| * 1.2 else |dailyPnL| * 0.8
  let avgLoss : ℚ := if dailyPnL < 0 then |dailyPnL| * 1.2 else |dailyPnL| * 0.8
  let reliability : ℚ := if 0 < avgLoss then avgWin / avgLoss else 1
  ⟨toFixed2 (hitRate * 100), toFixed2 avgWin, toFixed2 avgLoss, toFixed2 reliability⟩

/-- The ambient inputs one `gatherPortfolioData` call reads: the clock
instant and its renderings, the DOM status elements, the `cumulativePnL`
global, and the dashboard's `portfolioData` array. `dateStr`, `timeUtc` and
`timeParis` are the `toISOString`/`toLocaleString` renderings of the same
`Date` captured in `nowMs`. -/
structure LoggerEnv where
  nowMs : ℕ
  dateStr : String
  timeUtc : String
  timeParis : String
  portfolioValueText : Option String
  dailyPnlText : Option String
  pnlPercentText : Option String
  cumulativePnL : Option ℚ
  totalLongText : Option String
  totalShortText : Option String
  portfolioData : List Position
  deriving DecidableEq, Repr

/-- One gathered log record (the object literal `gatherPortfolioData`
returns; the spec's ValuationRecord plus the auxiliary columns). -/
structure LogData where
  timestamp : ℕ
  date : String
  time_utc : String
  time_paris : String
  csv_filename : String
  action : String
  portfolio_value : ℚ
  daily_pnl : ℚ
  daily_pnl_percent : ℚ
  cumulative_pnl : ℚ
  total_positions : ℕ
  long_positions : ℕ
  short_positions : ℕ
  long_notional : Option ℚ
  short_notional : Option ℚ
  total_notional_at_entry : ℚ
  gross_exposure : Option ℚ
  net_exposure : Option ℚ
  top_long_symbol : String
  top_long_weight : Option ℚ
  top_short_symbol : String
  top_short_weight : Option ℚ
  hit_rate_estimate : String
  avg_win : String
  avg_loss : String
  reliability_ratio : String
  deriving DecidableEq, Repr

/-- `PortfolioLogger.gatherPortfolioData`. -/
def gatherPortfolioData (env : LoggerEnv) (csvFilename action : String) : LogData :=
  let positionCounts := getPositionCounts env.portfolioData
  let exposureData := getExposureData env.portfolioData
  let topPositions := getTopPositions env.portfolioData
  let performanceMetrics := getPerformanceMetrics env.dailyPnlText
  let totalNotionalData := getTotalNotionalData env.totalLongText env.totalShortText
  { timestamp := env.nowMs
    date := env.dateStr
    time_utc := env.timeUtc
    time_paris := env.timeParis
    csv_filename := csvFilename
    action := action
    portfolio_value := getPortfolioValue env.portfolioValueText
    daily_pnl := getDailyPnL env.dailyPnlText
    daily_pnl_percent := getDailyPnLPercent env.pnlPercentText
    cumulative_pnl := getCumulativePnL env.cumulativePnL
    total_positions := positionCounts.total
    long_positions := positionCounts.long
    short_positions := positionCounts.short
    long_notional := positionCounts.longNotional
    short_notional := positionCounts.shortNotional
    total_notional_at_entry := totalNotionalData.1 + totalNotionalData.2
    gross_exposure := exposureData.1
    net_exposure := exposureData.2
    top_long_symbol := topPositions.1.symbol
    top_long_weight := topPositions.1.weight
    top_short_symbol := topPositions.2.symbol
    top_short_weight := topPositions.2.weight
    hit_rate_estimate := performanceMetrics.hitRate
    avg_win := performanceMetrics.avgWin
    avg_loss := performanceMetrics.avgLoss
    reliability_ratio := performanceMetrics.reliability }

/-- A JS value as it sits in a cell of a log row: a string, a (finite)
number, or NaN. -/
inductive JsVal where
  | str : String → JsVal
  | num : ℚ → JsVal
  | nan : JsVal
  deriving DecidableEq, Repr

/-- JS falsiness of a cell value: the empty string, the number 0, and NaN
are falsy. -/
def jsFalsy : JsVal → Bool
  | .str s => s = ""
  | .num q => q = 0
  | .nan => true

/-- `logData[header] || ''`. -/
def jsOrEmpty (v : JsVal) : JsVal :=
  if jsFalsy v then .str "" else v

/-- Double every double quote, as in `value.replace(/"/g, '""')`. -/
def dupQuotes (s : String) : String :=
  String.mk (s.toList.flatMap (fun c => if c = '"' then ['"', '"'] else [c]))

/-- The CSV escaping in `appendToLog`: only string values containing a comma
or a double quote are wrapped in doubled-quote quoting. -/
def escapeCell (v : JsVal) : JsVal :=
  match v with
  | .str s =>
    if s.toList.contains ',' ∨ s.toList.contains '"' then
      .str ("\"" ++ dupQuotes s ++ "\"")
    else .str s
  | v => v

/-- The `timestamp` value as it appears in the row: the `toISOString`
rendering of the instant, modelled by the instant's decimal rendering (both
are injective in the instant and never the empty string, so truthiness and
equality behave identically). -/
def tsRepr (n : ℕ) : String := toString n

/-- The cell `logData[header]` for each of the 26 headers (an unknown header
would read `undefined`, falsy like the empty string). -/
def fieldVal (d : LogData) (header : String) : JsVal :=
  if header = "timestamp" then .str (tsRepr d.timestamp)
  else if header = "date" then .str d.date
  else if header = "time_utc" then .str d.time_utc
  else if header = "time_paris" then .str d.time_paris
  else if header = "csv_filename" then .str d.csv_filename
  else if header = "action" then .str d.action
  else if header = "portfolio_value" then .num d.portfolio_value
  else if header = "daily_pnl" then .num d.daily_pnl
  else if header = "daily_pnl_percent" then .num d.daily_pnl_percent
  else if header = "cumulative_pnl" then .num d.cumulative_pnl
  else if header = "total_positions" then .num d.total_positions
  else if header = "long_positions" then .num d.long_positions
  else if header = "short_positions" then .num d.short_positions
  else if header = "long_notional" then (d.long_notional.elim .nan .num)
  else if header = "short_notional" then (d.short_notional.elim .nan .num)
  else if header = "total_notional_at_entry" then .num d.total_notional_at_entry
  else if header = "gross_exposure" then (d.gross_exposure.elim .nan .num)
  else if header = "net_exposure" then (d.net_exposure.elim .nan .num)
  else if header = "top_long_symbol" then .str d.top_long_symbol
  else if header = "top_long_weight" then (d.top_long_weight.elim .nan .num)
  else if header = "top_short_symbol" then .str d.top_short_symbol
  else if header = "top_short_weight" then (d.top_short_weight.elim .nan .num)
  else if header = "hit_rate_estimate" then .str d.hit_rate_estimate
  else if header = "avg_win" then .str d.avg_win
  else if header = "avg_loss" then .str d.avg_loss
  else if header = "reliability_ratio" then .str d.reliability_ratio
  else .str ""

/-- The one CSV row `appendToLog` builds from a gathered record:
`this.logHeaders.map(header => escape(logData[header] || ''))` (the final
`.join(',') + '\n'` is the textual rendering of this cell list). -/
def formatLogRow (logData : LogData) : List JsVal :=
  logHeaders.map (fun header => escapeCell (jsOrEmpty (fieldVal logData header)))

/-- `PortfolioLogger.appendToLog`: emit exactly the one row built from the
record. The append-only log is the sequence of rows emitted so far (the
source emits each row for the server-side CSV file and touches no earlier
output). -/
def appendToLog (log : List (List JsVal)) (logData : LogData) : List (List JsVal) :=
  log ++ [formatLogRow logData]

/-- `PortfolioLogger.logPreExecution`: gather with action `pre_execution`
and append. -/
def logPreExecution (log : List (List JsVal)) (env : LoggerEnv)
    (csvFilename : String) : List (List JsVal) :=
  appendToLog log (gatherPortfolioData env csvFilename "pre_execution")

/-- `PortfolioLogger.logPostExecution`: gather with action `post_execution`
and append (the subsequent chart-datapoint call does not touch the log). -/
def logPostExecution (log : List (List JsVal)) (env : LoggerEnv)
    (csvFilename : String) : List (List JsVal) :=
  appendToLog log (gatherPortfolioData env csvFilename "post_execution")

/-- One scheduled logging cycle: the ambient inputs it observes, the CSV
filename it is invoked for, and whether it is the post-execution variant. -/
structure Cycle where
  env : LoggerEnv
  csvFilename : String
  post : Bool
  deriving DecidableEq, Repr

/-- The action string a cycle logs under. -/
def actionName (c : Cycle) : String :=
  if c.post then "post_execution" else "pre_execution"

/-- Run one cycle against the log. -/
def stepCycle (log : List (List JsVal)) (c : Cycle) : List (List JsVal) :=
  if c.post then logPostExecution log c.env c.csvFilename
  else logPreExecution log c.env c.csvFilename

/-- Run a sequence of logging cycles. -/
def runCycles : List (List JsVal) → List Cycle → List (List JsVal)
  | log, [] => log
  | log, c :: cs => runCycles (stepCycle log c) cs

/-- The records gathered by a sequence of cycles, in order. -/
def recordsOf (cycles : List Cycle) : List LogData :=
  cycles.map (fun c => gatherPortfolioData c.env c.csvFilename (actionName c))

end PortfolioLogger

/-! ### Claim-side predicates and renamings -/

/-- The classification predicate of claim C9: the `target_contracts` field
parses to a number strictly greater than 0. -/
def isLongPos (p : PortfolioLogger.Position) : Bool :=
  match jsParseFloat p.target_contracts with
  | some v => decide (0 < v)
  | none => false

/-- Renaming a `findLatestCSV` outcome along a change of every file's
`modified` field (used to state that the selector ignores timestamps). -/
def mapModResult (newMod : CSVMonitor.CSVFile → String) :
    CSVMonitor.FindResult → CSVMonitor.FindResult
  | .found f => .found ⟨f.filename, newMod f⟩
  | .nothingAtAll => .nothingAtAll
  | .err => .err

/-! ### Concrete inputs used by witnesses and counterexamples -/

/-- A conforming daily release file. -/
def exGoodFile : CSVMonitor.CSVFile :=
  ⟨"lpxd_external_advisors_DF_20250916-2355.csv", "2025-09-17T00:05:00.000Z"⟩

/-- A file whose name contains the pattern (so the unanchored regex test
accepts it) but, as a whole, is not of the conventional form. -/
def exPrefixedFile : CSVMonitor.CSVFile :=
  ⟨"Xlpxd_external_advisors_DF_20250916-2355.csv", "2025-09-17T00:06:00.000Z"⟩

/-- A file ending in `2355.csv` that does not contain the naming pattern. -/
def exStray2355 : CSVMonitor.CSVFile := ⟨"x2355.csv", "2025-09-17T00:01:00.000Z"⟩

/-- A small well-formed rebalance file content. -/
def exCsvText : String := "internal_code,target_contracts,target_notional\nBTC,1,100"

/-- A loader that always succeeds with `exCsvText`. -/
def exLoad : String → Option String := fun _ => some exCsvText

/-- A loader modelling both the monitoring-server fetch and the local
fallback failing. -/
def failLoad : String → Option String := fun _ => none

/-- A fully populated logging environment. -/
def exEnv : PortfolioLogger.LoggerEnv :=
  { nowMs := 1000
    dateStr := "2025-09-17"
    timeUtc := "00:05:00"
    timeParis := "02:05:00"
    portfolioValueText := some "$1,000,000"
    dailyPnlText := some "$0"
    pnlPercentText := some "0%"
    cumulativePnL := some 0
    totalLongText := some "$500,000"
    totalShortText := some "$500,000"
    portfolioData := [] }

/-- `exEnv` observed at a given clock instant. -/
def exEnvAt (t : ℕ) : PortfolioLogger.LoggerEnv := { exEnv with nowMs := t }

/-- A post-execution logging cycle at instant `t`. -/
def exCycleAt (t : ℕ) : PortfolioLogger.Cycle := ⟨exEnvAt t, "f.csv", true⟩

/-- Two cycles observing the same clock instant. -/
def exEqualCycles : List PortfolioLogger.Cycle := [exCycleAt 1000, exCycleAt 1000]

/-- Two cycles with strictly increasing clock instants. -/
def exIncCycles : List PortfolioLogger.Cycle := [exCycleAt 1000, exCycleAt 2000]

/-- An environment in which the portfolio-value element is absent and the
daily-P&L element does not parse as a number. -/
def envMissing : PortfolioLogger.LoggerEnv :=
  { exEnv with portfolioValueText := none, dailyPnlText := some "N/A" }

/-- `envMissing` with genuinely zero valuation inputs instead of missing
ones. -/
def envZero : PortfolioLogger.LoggerEnv :=
  { envMissing with portfolioValueText := some "$0.00", dailyPnlText := some "0" }

/-! ## Theorems -/

open CSVMonitor PortfolioLogger

/-! ### General list lemmas -/

theorem find?_first {α : Type} (p : α → Bool) :
    ∀ (l : List α) (a : α), l.find? p = some a →
      ∃ l₁ l₂, l = l₁ ++ a :: l₂ ∧ p a = true ∧ ∀ b ∈ l₁, p b = false := by
  intro l
  induction l with
  | nil => intro a h; simp at h
  | cons x xs ih =>
    intro a h
    by_cases hx : p x
    · rw [List.find?_cons_of_pos _ hx] at h
      cases h
      exact ⟨[], xs, rfl, hx, by simp⟩
    · rw [List.find?_cons_of_neg _ hx] at h
      obtain ⟨l₁, l₂, hl, hpa, hall⟩ := ih a h
      refine ⟨x :: l₁, l₂, by rw [hl]; rfl, hpa, ?_⟩
      intro b hb
      rcases List.mem_cons.mp hb with rfl | hb'
      · exact Bool.eq_false_iff.mpr hx
      · exact hall b hb'

theorem find?_filter_comm {α : Type} (q p : α → Bool) (l : List α) :
    (l.filter q).find? p = l.find? (fun a => q a && p a) := by
  induction l with
  | nil => rfl
  | cons x xs ih =>
    by_cases hq : q x
    · by_cases hp : p x
      · simp [List.filter_cons, hq, List.find?_cons, hp]
      · simp [List.filter_cons, hq, List.find?_cons, hp, ih]
    · simp [List.filter_cons, hq, List.find?_cons, ih]

theorem filter_map_pred {α β : Type} (f : α → β) (p : β → Bool) (l : List α) :
    (l.map f).filter p = (l.filter (fun a => p (f a))).map f := by
  induction l with
  | nil => rfl
  | cons x xs ih =>
    by_cases hx : p (f x) <;> simp [List.filter_cons, hx, ih]

theorem find?_map_pred {α β : Type} (f : α → β) (p : β → Bool) (l : List α) :
    (l.map f).find? p = (l.find? (fun a => p (f a))).map f := by
  induction l with
  | nil => rfl
  | cons x xs ih =>
    by_cases hx : p (f x) <;> simp [List.find?_cons, hx, ih]

theorem take_append_self {α : Type} (l : List α) (r : α) :
    (l ++ [r]).take l.length = l := by
  induction l with
  | nil => rfl
  | cons x xs ih => simp [ih]

/-! ### CSVMonitor helper lemmas -/

theorem findLatestCSV_nil : findLatestCSV [] = .nothingAtAll := rfl

theorem checkForNewCSV_unchanged (st : MonitorState) (files : List CSVFile)
    (load : String → Option String) (f : CSVFile)
    (hfind : findLatestCSV files = .found f)
    (h1 : st.currentCSV = some f.filename)
    (h2 : st.lastModified = some f.modified) :
    checkForNewCSV st files load = ⟨st, none⟩ := by
  unfold checkForNewCSV
  by_cases he : files.isEmpty
  · simp [he]
  · simp [he, hfind, h1, h2]

theorem checkForNewCSV_rebalanced_of_isSome (st : MonitorState)
    (files : List CSVFile) (load : String → Option String)
    (h : (checkForNewCSV st files load).rebalanced.isSome = true) :
    ∃ f, findLatestCSV files = .found f ∧
      (checkForNewCSV st files load).rebalanced = triggerRebalancing load f.filename := by
  unfold checkForNewCSV at h ⊢
  by_cases he : files.isEmpty
  · simp [he] at h
  · cases hf : findLatestCSV files with
    | nothingAtAll => simp [he, hf] at h
    | err => simp [he, hf] at h
    | found f =>
      refine ⟨f, rfl, ?_⟩
      by_cases hc : st.currentCSV ≠ some f.filename ∨ st.lastModified ≠ some f.modified
      · simp [he, hf, hc]
      · simp [he, hf, hc] at h

/-! ### Claim C1 — restart idempotency of the Rebalance Ingestor -/

/-- Claim C1, counterexample: with a fresh monitor state (`currentCSV` and
`lastModified` reset to `null`, as after a restart) and an unchanged latest
valid file, `checkForNewCSV` does detect the file as new and does invoke the
rebalance callback again — a second rebalancing for the same trading day —
while the in-run re-check (state already tracking the file) does not. -/
theorem checkForNewCSV_restart_retriggers :
    (checkForNewCSV initialState [exGoodFile] exLoad).rebalanced.isSome = true ∧
    (checkForNewCSV (checkForNewCSV initialState [exGoodFile] exLoad).state
        [exGoodFile] exLoad).rebalanced = none := by
  decide

/-- Claim C1, amended: the monitor is idempotent only within a single run.
When its state already records the latest valid file's name and modified
time, re-running the check leaves the state unchanged and triggers no
rebalancing; and any two cycles over the same file list and loader that do
trigger (in particular the original processing and a re-processing after a
restart) hand the callback the identical position set. Restart
deduplication itself is not provided: a fresh state re-triggers (see the
counterexample). -/
theorem checkForNewCSV_idempotent_within_run :
    (∀ (st : MonitorState) (files : List CSVFile) (load : String → Option String)
        (f : CSVFile),
      findLatestCSV files = .found f →
      st.currentCSV = some f.filename → st.lastModified = some f.modified →
      checkForNewCSV st files load = ⟨st, none⟩) ∧
    (∀ (st₁ st₂ : MonitorState) (files : List CSVFile)
        (load : String → Option String),
      (checkForNewCSV st₁ files load).rebalanced.isSome = true →
      (checkForNewCSV st₂ files load).rebalanced.isSome = true →
      (checkForNewCSV st₁ files load).rebalanced
        = (checkForNewCSV st₂ files load).rebalanced) := by
  constructor
  · exact fun st files load f hf h1 h2 =>
      checkForNewCSV_unchanged st files load f hf h1 h2
  · intro st₁ st₂ files load h₁ h₂
    obtain ⟨f₁, hf₁, he₁⟩ := checkForNewCSV_rebalanced_of_isSome st₁ files load h₁
    obtain ⟨f₂, hf₂, he₂⟩ := checkForNewCSV_rebalanced_of_isSome st₂ files load h₂
    rw [hf₁] at hf₂
    cases hf₂
    rw [he₁, he₂]

/-- Witness for `checkForNewCSV_idempotent_within_run` at a concrete file,
state and loader. -/
theorem checkForNewCSV_idempotent_within_run_witness :
    checkForNewCSV ⟨some exGoodFile.filename, some exGoodFile.modified⟩
        [exGoodFile] exLoad
      = ⟨⟨some exGoodFile.filename, some exGoodFile.modified⟩, none⟩ :=
  checkForNewCSV_idempotent_within_run.1
    ⟨some exGoodFile.filename, some exGoodFile.modified⟩
    [exGoodFile] exLoad exGoodFile (by decide) rfl rfl

/-! ### Claim C2 — failure handling of a newly detected file -/

/-- Claim C2 (code bug): `checkForNewCSV` assigns `currentCSV` and
`lastModified` **before** awaiting `triggerRebalancing`, and the latter
catches its own errors without rolling the state back. At a concrete cycle
in which the latest file is new and loading fails both from the server and
the local fallback, the callback is not invoked (no position set) yet the
state has advanced to the failed file — and therefore a later cycle over
the unchanged listing is a no-op: the file is never re-attempted, contrary
to the claim. -/
theorem checkForNewCSV_failed_load_advances_state :
    (checkForNewCSV initialState [exGoodFile] failLoad).rebalanced = none ∧
    (checkForNewCSV initialState [exGoodFile] failLoad).state
      = ⟨some exGoodFile.filename, some exGoodFile.modified⟩ ∧
    (checkForNewCSV initialState [exGoodFile] failLoad).state ≠ initialState ∧
    ∀ load : String → Option String,
      checkForNewCSV (checkForNewCSV initialState [exGoodFile] failLoad).state
          [exGoodFile] load
        = ⟨(checkForNewCSV initialState [exGoodFile] failLoad).state, none⟩ := by
  refine ⟨by decide, by decide, by decide, ?_⟩
  intro load
  exact checkForNewCSV_unchanged _ _ load exGoodFile (by decide) (by decide) (by decide)

/-! ### Claim C3 — weight validation of incoming rebalance files -/

/-- Claim C3 (code bug): `parseCSV` performs no validation whatsoever, and
`triggerRebalancing` invokes the rebalance callback with whatever rows come
out. Concretely: a file whose weight entry does not parse as a signed real
number, and a file missing the weight column altogether, both reach the
callback as a position set; through the full monitor path the malformed
file even becomes the tracked current CSV. -/
theorem triggerRebalancing_accepts_malformed :
    triggerRebalancing (fun _ => some "symbol,weight\nBTC,notanumber") "f.csv"
      = some [[("symbol", "BTC"), ("weight", "notanumber")]] ∧
    jsParseFloat "notanumber" = none ∧
    triggerRebalancing (fun _ => some "symbol\nBTC") "f.csv"
      = some [[("symbol", "BTC")]] ∧
    (checkForNewCSV initialState [exGoodFile]
        (fun _ => some "symbol,weight\nBTC,notanumber")).rebalanced
      = some [[("symbol", "BTC"), ("weight", "notanumber")]] := by
  decide

/-! ### Claim C7 — naming convention enforced by findLatestCSV -/

/-- Claim C7, counterexample: the source's pattern test is unanchored
(`pattern.test`), so a filename that merely **contains** the conventional
name — here with a stray leading character — passes the filter and, ending
in `2355.csv`, is returned, although its name as a whole is not of the form
`lpxd_external_advisors_DF_<8 digits>-<4 digits>.csv`. -/
theorem findLatestCSV_accepts_nonconforming_name :
    findLatestCSV [exPrefixedFile] = .found exPrefixedFile ∧
    specNameForm exPrefixedFile.filename = false ∧
    ends2355 exPrefixedFile.filename = true := by
  decide

/-- Claim C7, amended: `findLatestCSV` returns a file only if its name
**contains** a substring matching
`lpxd_external_advisors_DF_<8 digits>-<4 digits>.csv` (the unanchored
`pattern.test`) and ends in `2355.csv`; it returns `null` exactly when no
listed filename contains such a substring, and throws exactly when some
filename does but none of those ends in `2355.csv` — it never falls back to
a file outside these rules. -/
theorem findLatestCSV_filter_spec (files : List CSVFile) :
    (∀ f, findLatestCSV files = .found f →
        f ∈ files ∧ regexTest f.filename = true ∧ ends2355 f.filename = true) ∧
    (findLatestCSV files = .nothingAtAll ↔ ∀ f ∈ files, regexTest f.filename = false) ∧
    (findLatestCSV files = .err ↔
        ((∃ f ∈ files, regexTest f.filename = true) ∧
          ∀ f ∈ files, regexTest f.filename = true → ends2355 f.filename = false)) := by
  by_cases he : (files.filter (fun file => regexTest file.filename)).isEmpty
  · have hnil : files.filter (fun file => regexTest file.filename) = [] :=
      List.isEmpty_iff.mp he
    have hall : ∀ f ∈ files, regexTest f.filename = false := fun f hf =>
      Bool.eq_false_iff.mpr (List.filter_eq_nil_iff.mp hnil f hf)
    have hres : findLatestCSV files = .nothingAtAll := by
      unfold findLatestCSV; simp [he]
    refine ⟨?_, ?_, ?_⟩
    · intro f hfound
      rw [hres] at hfound
      simp at hfound
    · rw [hres]
      exact ⟨fun _ => hall, fun _ => rfl⟩
    · rw [hres]
      constructor
      · intro h; simp at h
      · rintro ⟨⟨f, hf, hreg⟩, _⟩
        rw [hall f hf] at hreg
        simp at hreg
  · cases hfind : (files.filter (fun file => regexTest file.filename)).find?
        (fun file => ends2355 file.filename) with
    | some f =>
      have hres : findLatestCSV files = .found f := by
        unfold findLatestCSV; simp [he, hfind]
      have hmem := List.mem_filter.mp (List.mem_of_find?_eq_some hfind)
      have hends := List.find?_some hfind
      refine ⟨?_, ?_, ?_⟩
      · intro g hg
        rw [hres] at hg
        injection hg with hfg
        subst hfg
        exact ⟨hmem.1, hmem.2, hends⟩
      · rw [hres]
        constructor
        · intro h; simp at h
        · intro hall
          have h1 := hall f hmem.1
          rw [hmem.2] at h1
          simp at h1
      · rw [hres]
        constructor
        · intro h; simp at h
        · rintro ⟨_, hallne⟩
          have h1 := hallne f hmem.1 hmem.2
          rw [hends] at h1
          simp at h1
    | none =>
      have hres : findLatestCSV files = .err := by
        unfold findLatestCSV; simp [he, hfind]
      obtain ⟨x, hx⟩ : ∃ x, x ∈ files.filter (fun file => regexTest file.filename) := by
        cases hl : files.filter (fun file => regexTest file.filename) with
        | nil => rw [hl] at he; simp at he
        | cons a l => exact ⟨a, by simp [hl]⟩
      have hxm := List.mem_filter.mp hx
      refine ⟨?_, ?_, ?_⟩
      · intro g hg
        rw [hres] at hg
        simp at hg
      · rw [hres]
        constructor
        · intro h; simp at h
        · intro hall
          have h1 := hall x hxm.1
          rw [hxm.2] at h1
          simp at h1
      · rw [hres]
        constructor
        · intro _
          refine ⟨⟨x, hxm.1, hxm.2⟩, ?_⟩
          intro f hf hreg
          have hmemf : f ∈ files.filter (fun file => regexTest file.filename) :=
            List.mem_filter.mpr ⟨hf, hreg⟩
          exact Bool.eq_false_iff.mpr (List.find?_eq_none.mp hfind f hmemf)
        · intro _; rfl

/-- Witness for `findLatestCSV_filter_spec`: the returned file at a concrete
listing is a listed, pattern-containing, `2355.csv`-ending file. -/
theorem findLatestCSV_filter_spec_witness :
    exGoodFile ∈ [exStray2355, exGoodFile] ∧
    regexTest exGoodFile.filename = true ∧ ends2355 exGoodFile.filename = true :=
  (findLatestCSV_filter_spec [exStray2355, exGoodFile]).1 exGoodFile (by decide)

/-! ### Claim C10 — selection order in findLatestCSV -/

theorem filter_regex_map (files : List CSVFile) (newMod : CSVFile → String) :
    (files.map (fun f => (⟨f.filename, newMod f⟩ : CSVFile))).filter
        (fun file => regexTest file.filename)
      = (files.filter (fun file => regexTest file.filename)).map
          (fun f => ⟨f.filename, newMod f⟩) := by
  induction files with
  | nil => rfl
  | cons x xs ih =>
    by_cases hx : regexTest x.filename <;> simp [List.filter_cons, hx, ih]

theorem find?_ends_map (l : List CSVFile) (newMod : CSVFile → String) :
    (l.map (fun f => (⟨f.filename, newMod f⟩ : CSVFile))).find?
        (fun file => ends2355 file.filename)
      = (l.find? (fun file => ends2355 file.filename)).map
          (fun f => ⟨f.filename, newMod f⟩) := by
  induction l with
  | nil => rfl
  | cons x xs ih =>
    by_cases hx : ends2355 x.filename <;> simp [List.find?_cons, hx, ih]

/-- Changing every file's `modified` field arbitrarily renames the outcome of
`findLatestCSV` along the change: the selector never consults timestamps. -/
theorem findLatestCSV_map_mod (files : List CSVFile) (newMod : CSVFile → String) :
    findLatestCSV (files.map (fun f => ⟨f.filename, newMod f⟩))
      = mapModResult newMod (findLatestCSV files) := by
  by_cases he : (files.filter (fun file => regexTest file.filename)).isEmpty
  · have h0 : files.filter (fun file => regexTest file.filename) = [] :=
      List.isEmpty_iff.mp he
    unfold findLatestCSV
    rw [filter_regex_map files newMod, h0]
    simp [he, mapModResult]
  · have hne :
        ¬ ((files.filter (fun file => regexTest file.filename)).map
            (fun f => (⟨f.filename, newMod f⟩ : CSVFile))).isEmpty = true := by
      simp only [List.isEmpty_iff, List.map_eq_nil_iff] at he ⊢
      exact he
    cases hfind : (files.filter (fun file => regexTest file.filename)).find?
        (fun file => ends2355 file.filename) with
    | some f =>
      unfold findLatestCSV
      simp only [filter_regex_map files newMod,
        find?_ends_map (files.filter (fun file => regexTest file.filename)) newMod,
        hfind]
      simp [he, hne, mapModResult]
    | none =>
      unfold findLatestCSV
      simp only [filter_regex_map files newMod,
        find?_ends_map (files.filter (fun file => regexTest file.filename)) newMod,
        hfind]
      simp [he, hne, mapModResult]

/-- Claim C10, counterexample: a listing whose **first** file ending in
`2355.csv` does not contain the naming pattern. The candidate list contains
more than one file ending in `2355.csv`, yet `findLatestCSV` skips the
first of them and returns a later one — the claim's "first such file in
input list order" fails when "such file" is read as any file ending in
`2355.csv`. -/
theorem findLatestCSV_not_first_ending_2355 :
    ends2355 exStray2355.filename = true ∧
    ends2355 exGoodFile.filename = true ∧
    findLatestCSV [exStray2355, exGoodFile] = .found exGoodFile ∧
    exGoodFile ≠ exStray2355 := by
  decide

/-- Claim C10, amended: `findLatestCSV` returns the first file in input list
order that both contains the naming pattern and ends in `2355.csv` (every
earlier listed file fails the pattern test or the `2355.csv` suffix), and it
ignores the files' modification timestamps entirely: rewriting every file's
`modified` field by any function merely renames the outcome. -/
theorem findLatestCSV_first_in_order :
    (∀ (files : List CSVFile) (f : CSVFile), findLatestCSV files = .found f →
        ∃ l₁ l₂, files = l₁ ++ f :: l₂ ∧
          (regexTest f.filename && ends2355 f.filename) = true ∧
          ∀ g ∈ l₁, (regexTest g.filename && ends2355 g.filename) = false) ∧
    (∀ (files : List CSVFile) (newMod : CSVFile → String),
        findLatestCSV (files.map (fun f => ⟨f.filename, newMod f⟩))
          = mapModResult newMod (findLatestCSV files)) := by
  constructor
  · intro files f hfound
    have hfind : files.find?
        (fun a => regexTest a.filename && ends2355 a.filename) = some f := by
      rw [← find?_filter_comm]
      unfold findLatestCSV at hfound
      by_cases he : (files.filter (fun file => regexTest file.filename)).isEmpty
      · simp [he] at hfound
      · cases hf2 : (files.filter (fun file => regexTest file.filename)).find?
            (fun file => ends2355 file.filename) with
        | some g =>
          simp [he, hf2] at hfound
          rw [hfound]
        | none => simp [he, hf2] at hfound
    exact find?_first _ files f hfind
  · exact findLatestCSV_map_mod

/-- Witness for `findLatestCSV_first_in_order` at a concrete listing. -/
theorem findLatestCSV_first_in_order_witness :
    ∃ l₁ l₂, ([exStray2355, exGoodFile] : List CSVFile) = l₁ ++ exGoodFile :: l₂ ∧
      (regexTest exGoodFile.filename && ends2355 exGoodFile.filename) = true ∧
      ∀ g ∈ l₁, (regexTest g.filename && ends2355 g.filename) = false :=
  findLatestCSV_first_in_order.1 [exStray2355, exGoodFile] exGoodFile (by decide)

/-! ### Claim C8 — polling cadence rule -/

theorem release_window_iff (h m : ℕ) :
    (csvReleaseWindowStart ≤ (h : ℚ) + (m : ℚ) / 60 ∧
        (h : ℚ) + (m : ℚ) / 60 ≤ csvReleaseWindowEnd)
      ↔ (h = 0 ∧ m ≤ 30) := by
  unfold csvReleaseWindowStart csvReleaseWindowEnd
  constructor
  · rintro ⟨_, h1⟩
    rcases Nat.eq_zero_or_pos h with hz | hp
    · subst hz
      refine ⟨rfl, ?_⟩
      rw [Nat.cast_zero, zero_add, div_le_iff₀ (by norm_num : (0 : ℚ) < 60)] at h1
      norm_num at h1
      exact_mod_cast h1
    · exfalso
      have hge : (1 : ℚ) ≤ (h : ℚ) := by exact_mod_cast hp
      have hm : (0 : ℚ) ≤ (m : ℚ) / 60 := by positivity
      norm_num at h1
      linarith
  · rintro ⟨rfl, hm⟩
    have hm' : (m : ℚ) ≤ 30 := by exact_mod_cast hm
    constructor
    · positivity
    · rw [Nat.cast_zero, zero_add, div_le_iff₀ (by norm_num : (0 : ℚ) < 60)]
      norm_num
      linarith

theorem updateCheckInterval_eq (h m i : ℕ) :
    updateCheckInterval h m i =
      if csvReleaseWindowStart ≤ (h : ℚ) + (m : ℚ) / 60 ∧
          (h : ℚ) + (m : ℚ) / 60 ≤ csvReleaseWindowEnd
      then 10000 else 60000 := by
  simp only [updateCheckInterval]
  split_ifs <;> omega

/-- Claim C8 (confirmed): after any run of `updateCheckInterval`, the check
interval is 10000 ms exactly when `hours + minutes/60` lies between the
release-window bounds 0 and 0.5 — equivalently, the local time of day is
between 00:00 and 00:30 inclusive — and 60000 ms otherwise, regardless of
the previous interval; in particular the constructor's initial 30000 ms is
replaced by the first run. -/
theorem updateCheckInterval_release_window (h m i : ℕ) :
    (updateCheckInterval h m i = 10000 ↔
        (csvReleaseWindowStart ≤ (h : ℚ) + (m : ℚ) / 60 ∧
          (h : ℚ) + (m : ℚ) / 60 ≤ csvReleaseWindowEnd)) ∧
    ((csvReleaseWindowStart ≤ (h : ℚ) + (m : ℚ) / 60 ∧
        (h : ℚ) + (m : ℚ) / 60 ≤ csvReleaseWindowEnd) ↔ (h = 0 ∧ m ≤ 30)) ∧
    (¬ (h = 0 ∧ m ≤ 30) → updateCheckInterval h m i = 60000) ∧
    updateCheckInterval h m i ≠ 30000 := by
  have heq := updateCheckInterval_eq h m i
  have hiff := release_window_iff h m
  by_cases hw : csvReleaseWindowStart ≤ (h : ℚ) + (m : ℚ) / 60 ∧
      (h : ℚ) + (m : ℚ) / 60 ≤ csvReleaseWindowEnd
  · rw [heq, if_pos hw]
    refine ⟨by simp [hw], hiff, ?_, by decide⟩
    intro hnot
    exact absurd (hiff.mp hw) hnot
  · rw [heq, if_neg hw]
    refine ⟨by simp [hw], hiff, fun _ => rfl, by decide⟩

/-- Witness for `updateCheckInterval_release_window`: at 01:00 local time
(outside the window) the interval becomes 60000 ms. -/
theorem updateCheckInterval_release_window_witness :
    updateCheckInterval 1 0 30000 = 60000 :=
  (updateCheckInterval_release_window 1 0 30000).2.2.1 (by decide)

/-! ### Claim C9 — position classification in getPositionCounts -/

theorem posStep_eq (acc : PosAcc) (p : Position) :
    posStep acc p =
      if isLongPos p then
        { acc with long := acc.long + 1,
                   longNotional := jsAdd acc.longNotional (jsParseFloat p.target_notional) }
      else
        { acc with short := acc.short + 1,
                   shortNotional := jsAdd acc.shortNotional (jsAbs (jsParseFloat p.target_notional)) } := by
  unfold posStep isLongPos
  cases h : jsParseFloat p.target_contracts <;> simp [jsGtBool, h]

theorem foldl_posStep_long (pd : List Position) :
    ∀ acc : PosAcc, (pd.foldl posStep acc).long = acc.long + pd.countP isLongPos := by
  induction pd with
  | nil => intro acc; simp
  | cons x xs ih =>
    intro acc
    rw [List.foldl_cons, posStep_eq]
    by_cases hx : isLongPos x <;>
      (simp [hx, ih, List.countP_cons]; try omega)

theorem foldl_posStep_short (pd : List Position) :
    ∀ acc : PosAcc,
      (pd.foldl posStep acc).short = acc.short + pd.countP (fun p => !isLongPos p) := by
  induction pd with
  | nil => intro acc; simp
  | cons x xs ih =>
    intro acc
    rw [List.foldl_cons, posStep_eq]
    by_cases hx : isLongPos x <;>
      (simp [hx, ih, List.countP_cons]; try omega)

theorem foldl_posStep_longNotional (pd : List Position) :
    ∀ acc : PosAcc,
      (pd.foldl posStep acc).longNotional =
        (pd.filter isLongPos).foldl
          (fun s p => jsAdd s (jsParseFloat p.target_notional)) acc.longNotional := by
  induction pd with
  | nil => intro acc; simp
  | cons x xs ih =>
    intro acc
    rw [List.foldl_cons, posStep_eq]
    by_cases hx : isLongPos x <;> simp [hx, ih, List.filter_cons]

theorem foldl_posStep_shortNotional (pd : List Position) :
    ∀ acc : PosAcc,
      (pd.foldl posStep acc).shortNotional =
        (pd.filter (fun p => !isLongPos p)).foldl
          (fun s p => jsAdd s (jsAbs (jsParseFloat p.target_notional))) acc.shortNotional := by
  induction pd with
  | nil => intro acc; simp
  | cons x xs ih =>
    intro acc
    rw [List.foldl_cons, posStep_eq]
    by_cases hx : isLongPos x <;> simp [hx, ih, List.filter_cons]

/-- Claim C9 (confirmed): `getPositionCounts` classifies a position as long
exactly when its `target_contracts` field parses to a number strictly
greater than 0 (zero, negative or unparsable fields count as short); the
returned total is always the long count plus the short count; long
notionals are accumulated signed while short notionals are accumulated in
absolute value (both NaN-propagating, in input order). -/
theorem getPositionCounts_spec (pd : List Position) :
    (∀ p : Position,
        isLongPos p = true ↔ ∃ v, jsParseFloat p.target_contracts = some v ∧ 0 < v) ∧
    (getPositionCounts pd).long = pd.countP isLongPos ∧
    (getPositionCounts pd).short = pd.countP (fun p => !isLongPos p) ∧
    (getPositionCounts pd).total
      = (getPositionCounts pd).long + (getPositionCounts pd).short ∧
    (getPositionCounts pd).longNotional =
      (pd.filter isLongPos).foldl
        (fun s p => jsAdd s (jsParseFloat p.target_notional)) (some 0) ∧
    (getPositionCounts pd).shortNotional =
      (pd.filter (fun p => !isLongPos p)).foldl
        (fun s p => jsAdd s (jsAbs (jsParseFloat p.target_notional))) (some 0) := by
  have hchar : ∀ p : Position,
      isLongPos p = true ↔ ∃ v, jsParseFloat p.target_contracts = some v ∧ 0 < v := by
    intro p
    unfold isLongPos
    cases h : jsParseFloat p.target_contracts with
    | none => simp
    | some v => simp
  by_cases hpd : pd.isEmpty
  · have : pd = [] := List.isEmpty_iff.mp hpd
    subst this
    refine ⟨hchar, ?_, ?_, ?_, ?_, ?_⟩ <;> simp [getPositionCounts]
  · unfold getPositionCounts
    simp only [hpd, Bool.false_eq_true, if_neg]
    refine ⟨hchar, ?_, ?_, ?_, ?_, ?_⟩
    · simp [foldl_posStep_long]
    · simp [foldl_posStep_short]
    · rfl
    · simp [foldl_posStep_longNotional]
    · simp [foldl_posStep_shortNotional]

/-! ### Claim C5 — one appended row per successful cycle -/

/-- Claim C5 (confirmed): each successful `logPreExecution` or
`logPostExecution` cycle produces the log extended by exactly the one row
built from the gathered record — the new log is the old log plus one row,
every previously written row is left in place, and the length grows by
exactly one. -/
theorem logExecution_appends_one_row (log : List (List JsVal))
    (env : LoggerEnv) (csvFilename : String) :
    logPreExecution log env csvFilename
        = log ++ [formatLogRow (gatherPortfolioData env csvFilename "pre_execution")] ∧
    logPostExecution log env csvFilename
        = log ++ [formatLogRow (gatherPortfolioData env csvFilename "post_execution")] ∧
    (logPreExecution log env csvFilename).take log.length = log ∧
    (logPostExecution log env csvFilename).take log.length = log ∧
    (logPreExecution log env csvFilename).length = log.length + 1 ∧
    (logPostExecution log env csvFilename).length = log.length + 1 := by
  refine ⟨rfl, rfl, ?_, ?_, ?_, ?_⟩
  · exact take_append_self log _
  · exact take_append_self log _
  · simp [logPreExecution, appendToLog]
  · simp [logPostExecution, appendToLog]

/-! ### Claim C6 — strict time-ordering of the valuation log -/

theorem stepCycle_eq (log : List (List JsVal)) (c : Cycle) :
    stepCycle log c
      = log ++ [formatLogRow (gatherPortfolioData c.env c.csvFilename (actionName c))] := by
  by_cases hc : c.post <;>
    simp [stepCycle, actionName, hc, logPostExecution, logPreExecution, appendToLog]

theorem runCycles_eq (cycles : List Cycle) :
    ∀ log : List (List JsVal),
      runCycles log cycles = log ++ (recordsOf cycles).map formatLogRow := by
  induction cycles with
  | nil => intro log; simp [runCycles, recordsOf]
  | cons c cs ih =>
    intro log
    rw [runCycles, ih, stepCycle_eq]
    simp [recordsOf]

/-- Claim C6, counterexample: the logger stamps each record with the clock
reading at gather time and performs no monotonicity check. Two cycles
observing the same instant append two records with equal timestamps — the
log is then not strictly time-ordered, yet both rows are appended. -/
theorem valuation_log_can_repeat_timestamps :
    ((recordsOf exEqualCycles).map LogData.timestamp = [1000, 1000]) ∧
    ¬ List.Chain' (fun a b : LogData => a.timestamp < b.timestamp)
        (recordsOf exEqualCycles) ∧
    (runCycles [] exEqualCycles).length = 2 := by
  refine ⟨by decide, ?_, ?_⟩
  · intro hch
    exact Nat.lt_irrefl _ ((List.chain'_cons.mp hch).1)
  · rw [runCycles_eq]
    simp [recordsOf, exEqualCycles]

/-- Claim C6, amended: each appended record's timestamp is exactly the
clock instant its cycle observed; therefore the log is strictly
time-ordered whenever successive cycles observe strictly increasing clock
instants — the logger itself enforces nothing (see the counterexample for
a repeated instant). -/
theorem valuation_log_ordered_iff_clock_increases (cycles : List Cycle)
    (hclock : List.Chain' (· < ·) (cycles.map (fun c => c.env.nowMs))) :
    List.Chain' (fun a b : LogData => a.timestamp < b.timestamp) (recordsOf cycles) ∧
    (recordsOf cycles).map LogData.timestamp = cycles.map (fun c => c.env.nowMs) ∧
    ∀ log, runCycles log cycles = log ++ (recordsOf cycles).map formatLogRow := by
  refine ⟨?_, ?_, fun log => runCycles_eq cycles log⟩
  · rw [List.chain'_map] at hclock
    unfold recordsOf
    rw [List.chain'_map]
    exact hclock
  · unfold recordsOf
    rw [List.map_map]
    rfl

/-- Witness for `valuation_log_ordered_iff_clock_increases` at two cycles
with strictly increasing instants. -/
theorem valuation_log_ordered_iff_clock_increases_witness :
    List.Chain' (fun a b : LogData => a.timestamp < b.timestamp)
      (recordsOf exIncCycles) :=
  (valuation_log_ordered_iff_clock_increases exIncCycles
    (by
      rw [show exIncCycles.map (fun c => c.env.nowMs) = [1000, 2000] from rfl]
      norm_num [List.chain'_cons])).1

/-! ### Claim C4 — missing valuation inputs are logged as zero -/

/-- Claim C4 (code bug): when the portfolio-value element is absent, or its
(or the P&L element's) text does not parse as a number,
`parseFloat(text) || 0` makes the getters return the number 0, and the
gathered record carries 0 with no missing/stale marker — indeed the record
logged from missing inputs is byte-for-byte identical to the record logged
from genuinely zero inputs. -/
theorem missing_valuation_logged_as_zero :
    getPortfolioValue none = 0 ∧
    getPortfolioValue (some "N/A") = 0 ∧
    getDailyPnL none = 0 ∧
    getDailyPnL (some "--") = 0 ∧
    (gatherPortfolioData envMissing "f.csv" "post_execution").portfolio_value = 0 ∧
    (gatherPortfolioData envMissing "f.csv" "post_execution").daily_pnl = 0 ∧
    gatherPortfolioData envMissing "f.csv" "post_execution"
      = gatherPortfolioData envZero "f.csv" "post_execution" := by
  have hpvM : getPortfolioValue none = 0 := rfl
  have hpvNA : getPortfolioValue (some "N/A") = 0 := rfl
  have hdpM : getDailyPnL none = 0 := rfl
  have hdpNA : getDailyPnL (some "N/A") = 0 := rfl
  have hdpDash : getDailyPnL (some "--") = 0 := rfl
  have hpv0 : getPortfolioValue (some "$0.00") = 0 := by
    have h : getPortfolioValue (some "$0.00")
        = (1 : ℚ) * (((0 : ℕ) : ℚ) + ((0 : ℕ) : ℚ) / (10 : ℚ) ^ (2 : ℕ))
            * (10 : ℚ) ^ (0 : ℤ) := rfl
    rw [h]; norm_num
  have hdp0 : getDailyPnL (some "0") = 0 := by
    have h : getDailyPnL (some "0")
        = (1 : ℚ) * (((0 : ℕ) : ℚ) + ((0 : ℕ) : ℚ) / (10 : ℚ) ^ (0 : ℕ))
            * (10 : ℚ) ^ (0 : ℤ) := rfl
    rw [h]; norm_num
  refine ⟨hpvM, hpvNA, hdpM, hdpDash, rfl, rfl, ?_⟩
  simp only [gatherPortfolioData, getPerformanceMetrics, envMissing, envZero, exEnv]
  simp only [hpvM, hdpNA, hpv0, hdp0]
